import Mathlib

open RealInnerProductSpace

/-!
Shallow embedding of the core of the `street-tracker` repository
(GPS walk classification and street-coverage computation), together with
theorems checking the natural-language specification against the code.

Source files embedded here:
  * `src/utils/config.py`           — city parameter tables, CRS constants
  * `src/utils/geo_utils.py`        — `calculate_path_metrics`, `calculate_coverage`
  * `src/data/walk_analyzer.py`     — `is_probable_transit`, `analyze_walks`
  * `src/scripts/analyze_walks.py`  — `haversine_distance`,
      `split_path_into_segments`, `calculate_segment_metrics`,
      `is_probable_transit_segment`
  * `src/scripts/analyze_walks_city_specific.py` — `calculate_path_metrics`,
      `is_probable_transit`, `analyze_walks` (street-coverage loop)
  * `src/scripts/match_walks_to_streets.py`      — `match_walks_to_streets`
      (per-street coverage computation)

Conventions.  Python floats are modelled by elements of a linear ordered
field `K` (instantiated with `ℚ` for executable witnesses and with `ℝ`
where the source computes square roots and trigonometric functions).
Python exceptions are modelled with `Except PyErr`; a Python `try/except`
returning `None` becomes a `match` on the `Except` value.  Geometry
operations performed by the external `shapely` library are abstracted
into a record of operations (`GeoModel`); the repository's own arithmetic
and control flow around those operations is embedded verbatim.  A small
executable interval model (`ivModel`) instantiates the record so that
concrete runs can be evaluated by `decide`.
-/

/-- Python runtime errors that the embedded code can raise. -/
inductive PyErr : Type
  | attributeError
  | zeroDivisionError
  deriving DecidableEq, Repr

instance {ε α : Type} [DecidableEq ε] [DecidableEq α] : DecidableEq (Except ε α) :=
  fun a b =>
    match a, b with
    | .ok x, .ok y => if h : x = y then .isTrue (by rw [h]) else .isFalse (by simp [h])
    | .error x, .error y => if h : x = y then .isTrue (by rw [h]) else .isFalse (by simp [h])
    | .ok _, .error _ => .isFalse (by simp)
    | .error _, .ok _ => .isFalse (by simp)

section Arith

variable {K : Type} [LinearOrderedField K]

/-- Python float division: `a / b` raises `ZeroDivisionError` when `b == 0`. -/
def pydiv (a b : K) : Except PyErr K :=
  if b = 0 then .error .zeroDivisionError else .ok (a / b)

end Arith

/-- The three configured regions of `CITY_PARAMS` (both in
`src/utils/config.py` and in `analyze_walks_city_specific.py`). -/
inductive City : Type
  | london
  | blacksburg
  | mumbai
  deriving DecidableEq, Repr

section Config

variable (K : Type) [LinearOrderedField K]

/-- A per-city threshold record (one entry of the `CITY_PARAMS` dict). -/
structure Params : Type where
  buffer_distance : K
  max_walking_speed : K
  min_walking_speed : K
  max_sinuosity : K
  max_direct_distance : K

variable {K}

/-- The `CITY_PARAMS` table from `src/utils/config.py` (the copy in
`analyze_walks_city_specific.py` has the same threshold values; the
`bbox` entry is not used by any embedded function and is omitted). -/
def CITY_PARAMS : City → Params K
  | .london =>
    { buffer_distance := 8, max_walking_speed := 5/2, min_walking_speed := 1/5,
      max_sinuosity := 3, max_direct_distance := 8000 }
  | .blacksburg =>
    { buffer_distance := 10, max_walking_speed := 14/5, min_walking_speed := 1/5,
      max_sinuosity := 7/2, max_direct_distance := 5000 }
  | .mumbai =>
    { buffer_distance := 6, max_walking_speed := 11/5, min_walking_speed := 1/10,
      max_sinuosity := 16/5, max_direct_distance := 6000 }

/-- The metrics dictionary returned by the trajectory-level metric
calculators (`geo_utils.calculate_path_metrics` and
`analyze_walks_city_specific.calculate_path_metrics`). -/
structure Metrics (K : Type) : Type where
  duration : K
  path_distance : K
  direct_distance : K
  avg_speed : K
  sinuosity : K

/-- The metrics dictionary returned by
`analyze_walks.calculate_segment_metrics`.  `point_density` is
`len(coords) / path_distance` when `path_distance > 0` and the float
`inf` otherwise, modelled by `WithTop K` where `⊤` plays the role of
`inf` (it compares greater than every finite value, as `inf` does). -/
structure SegMetrics (K : Type) : Type where
  direct_distance : K
  path_distance : K
  duration_hours : K
  avg_speed_kmh : K
  sinuosity : K
  point_density : WithTop K

end Config

namespace WalkAnalyzer

variable {K : Type} [LinearOrderedField K]

/-- The four threshold rules in the body of
`walk_analyzer.is_probable_transit` (`src/data/walk_analyzer.py`,
lines 27-43), applied once metrics have been computed.  The rules in
`analyze_walks_city_specific.is_probable_transit` (lines 99-115) are
character-for-character the same. -/
def transit_rules (params : Params K) (m : Metrics K) : Bool :=
  -- Check if path is too long to be walking
  if m.direct_distance > params.max_direct_distance then true
  -- Check speed - only filter out if significantly above max walking speed
  else if m.avg_speed > params.max_walking_speed * (12/10) then true
  -- Check if path is too straight (likely a transit route) - only for longer trips
  else if m.direct_distance > 2000 ∧ m.sinuosity < 21/20 then true
  -- Check if path is too slow (likely stopped) - more lenient minimum speed
  else if m.avg_speed < params.min_walking_speed ∧ m.direct_distance > 500 then true
  else false

end WalkAnalyzer

namespace AnalyzeWalks

/-- `split_path_into_segments` loop from `src/scripts/analyze_walks.py`
(lines 25-48): `cur` is `current_segment`; each zipped element is pushed
onto it, a full run of `segment_size` points is emitted (when it has at
least 2 points) and the next run restarts from the last point pushed;
the trailing run is kept only when it has at least 2 points. -/
def split_go {α : Type} (segment_size : ℕ) (cur : List α) : List α → List (List α)
  | [] => if 2 ≤ cur.length then [cur] else []
  | x :: rest =>
    let cur' := cur ++ [x]
    if segment_size ≤ cur'.length then
      (if 2 ≤ cur'.length then [cur'] else []) ++ split_go segment_size [x] rest
    else
      split_go segment_size cur' rest

/-- `split_path_into_segments(coords, timestamps, segment_size=5)`.
The Python loop iterates over `zip(coords, timestamps)` and appends each
coordinate and its timestamp to two parallel segment lists; this is the
same as splitting the zipped list and projecting both components. -/
def split_path_into_segments {α β : Type} (coords : List α) (timestamps : List β)
    (segment_size : ℕ := 5) : List (List α) × List (List β) :=
  let segs := split_go segment_size [] (List.zip coords timestamps)
  (segs.map (List.map Prod.fst), segs.map (List.map Prod.snd))

variable {K : Type} [LinearOrderedField K]

/-- Constant `MAX_WALKING_SPEED = 7  # km/h` of `is_probable_transit_segment`. -/
def MAX_WALKING_SPEED : K := 7

/-- Constant `MIN_POINT_DENSITY = 50  # points per km` of `is_probable_transit_segment`. -/
def MIN_POINT_DENSITY : K := 50

/-- Constant `MIN_SINUOSITY = 1.05` of `is_probable_transit_segment`. -/
def MIN_SINUOSITY : K := 21/20

/-- `is_probable_transit_segment(metrics)` from
`src/scripts/analyze_walks.py` (lines 96-114): `None` metrics are
classified as transit, otherwise the speed / sinuosity-density rule
applies. -/
def is_probable_transit_segment (metrics : Option (SegMetrics K)) : Bool :=
  match metrics with
  | none => true
  | some m =>
    if m.avg_speed_kmh > MAX_WALKING_SPEED ∨
        (m.sinuosity < MIN_SINUOSITY ∧
          m.path_distance > 1/2 ∧
          m.point_density < (MIN_POINT_DENSITY : K)) then true
    else false

end AnalyzeWalks

/-- Abstract interface to the geometry operations that the repository
delegates to the external `shapely` library.  `G` is the type of
geometries, `K` the numeric type of lengths/coordinates.  The embedded
repository functions are parametric in this record; the theorems state
their geometric side conditions (length nonnegativity, emptiness of
non-intersecting overlaps) as explicit hypotheses, and the executable
interval model `ivModel` below discharges them on concrete inputs. -/
structure GeoModel (K G : Type) : Type where
  /-- `geom.length` -/
  length : G → K
  /-- `geom.is_empty` -/
  is_empty : G → Bool
  /-- `a.intersects(b)` -/
  intersects : G → G → Bool
  /-- `a.intersection(b)` -/
  intersection : G → G → G
  /-- `a.union(b)` -/
  union : G → G → G
  /-- `isinstance(geom, (LineString, MultiLineString))` -/
  is_lineal : G → Bool
  /-- `geom.buffer(d)` -/
  buffer : G → K → G

namespace GeoUtils

variable {K G : Type} [LinearOrderedField K]

/-- `geo_utils.calculate_coverage(street_geom, walk_buffers)`
(`src/utils/geo_utils.py`, lines 98-123): with no buffers the result is
`0.0`; otherwise all buffers are combined by repeated `union`, the
street is intersected with the combined buffer, an empty intersection
gives `0.0`, and otherwise the percentage
`intersection.length / street_geom.length * 100` is capped at `100.0`.
The division is Python float division, which raises
`ZeroDivisionError` on a zero-length street. -/
def calculate_coverage (A : GeoModel K G) (street_geom : G) (walk_buffers : List G) :
    Except PyErr K :=
  match walk_buffers with
  | [] => .ok 0
  | b0 :: rest =>
    let combined_buffer := rest.foldl A.union b0
    let inter := A.intersection street_geom combined_buffer
    if A.is_empty inter then .ok 0
    else
      (pydiv (A.length inter) (A.length street_geom)).map fun q => min (q * 100) 100

end GeoUtils

namespace MatchWalks

variable {K G : Type} [LinearOrderedField K]

/-- The per-street body of `match_walks_to_streets`
(`src/scripts/match_walks_to_streets.py`, lines 64-91), producing the
`(covered, coverage_percent)` pair written into the output row.  When no
walk buffer intersects the street both fields keep their initialized
values `False` / `0.0`.  Otherwise `covered` is set to `True`, the
lengths of the line-typed intersections of the street with each
intersecting buffer are accumulated, and
`min(100, covered_length / street_geom.length * 100)` is stored. -/
def street_coverage (A : GeoModel K G) (street_geom : G) (walk_buffers : List G) :
    Except PyErr (Bool × K) :=
  let intersecting_buffers := walk_buffers.filter fun b => A.intersects b street_geom
  if intersecting_buffers.isEmpty then .ok (false, 0)
  else
    let covered_length : K :=
      (intersecting_buffers.map fun b =>
        let inter := A.intersection street_geom b
        if A.is_empty inter then 0
        else if A.is_lineal inter then A.length inter else 0).sum
    (pydiv covered_length (A.length street_geom)).map fun q => (true, min 100 (q * 100))

end MatchWalks

namespace CitySpec

variable {K G : Type} [LinearOrderedField K]

/-- The per-street body of the coverage loop in
`analyze_walks_city_specific.analyze_walks` (lines 152-169): every valid
walk geometry is buffered by the city's `buffer_distance`, the lengths
of the non-empty intersections with the street are accumulated, and only
when `street_geom.length > 0` are `coverage_percent` (capped at 100) and
`covered = coverage_percent > 0` written; a zero-length street keeps the
initialized `(0.0, False)`. -/
def street_coverage (A : GeoModel K G) (street_geom : G) (valid_walks : List G)
    (buffer_distance : K) : K × Bool :=
  let covered_length : K :=
    (valid_walks.map fun w =>
      let buffered_walk := A.buffer w buffer_distance
      let inter := A.intersection street_geom buffered_walk
      if A.is_empty inter then 0 else A.length inter).sum
  if A.length street_geom > 0 then
    let coverage_percent := covered_length / A.length street_geom * 100
    (min coverage_percent 100, decide (coverage_percent > 0))
  else
    (0, false)

end CitySpec

/-- A row of the walks GeoDataFrame as consumed by
`walk_analyzer.is_probable_transit` via
`geo_utils.calculate_path_metrics`: parsed start/end timestamps (`none`
models a `pd.to_datetime` failure, which the blanket `except` turns
into a `None` result) and the shapely path geometry. -/
structure GdfPath (K G : Type) : Type where
  start_time : Option K
  end_time : Option K
  geometry : G

/-- Attribute access `path_geom.crs` on a shapely geometry object
(`src/utils/geo_utils.py`, line 32).  Shapely geometries do not carry a
`crs` attribute (the CRS lives on the GeoDataFrame, not on the geometry
extracted from it), so the access never yields a value: it raises
`AttributeError`.  The `Empty` result type records that no value can be
produced. -/
def shapely_geom_crs {G : Type} (_geom : G) : Except PyErr Empty :=
  .error .attributeError

namespace GeoUtils

variable {K G : Type} [LinearOrderedField K]

/-- `geo_utils.calculate_path_metrics(path, city)`
(`src/utils/geo_utils.py`, lines 14-54).  The whole body is a
`try/except` returning `None` on any failure.  Timestamp parsing can
fail (modelled by `none` fields); when it succeeds the body reads
`path.geometry.iloc[0]` and immediately evaluates `path_geom.crs`,
which raises `AttributeError` (see `shapely_geom_crs`), so the
remainder of the body (reprojection, distance and metric computation)
is unreachable and the function always returns `None`. -/
def calculate_path_metrics (path : GdfPath K G) (_city : City) : Option (Metrics K) :=
  match path.start_time, path.end_time with
  | some start_time, some end_time =>
    let _duration := end_time - start_time
    match shapely_geom_crs path.geometry with
    | .error _ => none       -- `except Exception as e: ... return None`
    | .ok e => e.elim        -- no value: the attribute does not exist
  | _, _ => none             -- timestamp parse failure, same `except` branch

end GeoUtils

namespace WalkAnalyzer

variable {K G : Type} [LinearOrderedField K]

/-- `walk_analyzer.is_probable_transit(path, city)`
(`src/data/walk_analyzer.py`, lines 11-43): computes metrics through
`geo_utils.calculate_path_metrics` and returns `False` when metrics are
absent (`if not metrics: return False`), otherwise applies the four
threshold rules. -/
def is_probable_transit (path : GdfPath K G) (city : City) : Bool :=
  let params : Params K := CITY_PARAMS city
  let metrics := GeoUtils.calculate_path_metrics path city
  match metrics with
  | none => false
  | some m => transit_rules params m

/-- The transit filter of `walk_analyzer.analyze_walks`
(`src/data/walk_analyzer.py`, lines 56-63): every walk that is not a
probable transit trip is kept as a valid walk. -/
def valid_walks (walks : List (GdfPath K G)) (city : City) : List (GdfPath K G) :=
  walks.filter fun walk => ! is_probable_transit walk city

/-- The per-street update of `walk_analyzer.analyze_walks`
(`src/data/walk_analyzer.py`, lines 76-79):
`coverage = calculate_coverage(street.geometry, walk_buffers)`,
`coverage_percent = coverage`, `covered = coverage > 0`. -/
def street_update (A : GeoModel K G) (street_geom : G) (walk_buffers : List G) :
    Except PyErr (K × Bool) :=
  (GeoUtils.calculate_coverage A street_geom walk_buffers).map fun coverage =>
    (coverage, decide (coverage > 0))

end WalkAnalyzer

/-!
Executable geometry model: one-dimensional geometries given as finite
unions of closed rational intervals on a line.  An interval `(a, b)`
denotes `[a, b]` when `a ≤ b` (the degenerate case `a = b` is a single
point, the analogue of a shapely `Point`) and denotes nothing when
`a > b`.  This suffices to realize the configurations the witness and
counterexample theorems need (collinear streets, buffers and their
overlaps) while keeping every operation decidable.
-/

/-- A closed rational interval `[a, b]`; empty when `b < a`. -/
abbrev Iv : Type := ℚ × ℚ

/-- A geometry: a finite union of intervals on a line. -/
abbrev IvGeom : Type := List Iv

/-- Length of one interval. -/
def ivLen (i : Iv) : ℚ := max 0 (i.2 - i.1)

/-- Emptiness of one interval. -/
def ivEmptyB (i : Iv) : Bool := decide (i.2 < i.1)

/-- Intersection of two intervals. -/
def ivInter (i j : Iv) : Iv := (max i.1 j.1, min i.2 j.2)

/-- Total length of a geometry (degenerate/empty components contribute 0). -/
def ivgLength (g : IvGeom) : ℚ := (g.map ivLen).sum

/-- A geometry is empty when all its component intervals are. -/
def ivgEmpty (g : IvGeom) : Bool := g.all ivEmptyB

/-- Pairwise intersection of two geometries. -/
def ivgInter (g h : IvGeom) : IvGeom := (g.map fun i => h.map (ivInter i)).flatten

/-- Union of two geometries (as point sets; components may overlap). -/
def ivgUnion (g h : IvGeom) : IvGeom := g ++ h

/-- Two geometries intersect when their intersection is non-empty
(shapely's `intersects` includes mere boundary touching). -/
def ivgIntersects (g h : IvGeom) : Bool := ! ivgEmpty (ivgInter g h)

/-- A geometry is line-typed (`LineString`/`MultiLineString`) when it is
non-empty and every non-empty component is a proper segment; a
degenerate component is a `Point`, making the intersection result a
`Point` or `GeometryCollection` instead. -/
def ivgLineal (g : IvGeom) : Bool :=
  (! ivgEmpty g) && g.all fun i => ivEmptyB i || decide (i.1 < i.2)

/-- Buffering dilates every component by `d` on both sides. -/
def ivgBuffer (g : IvGeom) (d : ℚ) : IvGeom := g.map fun i => (i.1 - d, i.2 + d)

/-- The interval model packaged as a `GeoModel`. -/
def ivModel : GeoModel ℚ IvGeom :=
  { length := ivgLength
    is_empty := ivgEmpty
    intersects := ivgIntersects
    intersection := ivgInter
    union := ivgUnion
    is_lineal := ivgLineal
    buffer := ivgBuffer }

/-!
Real-valued metric calculators.  `analyze_walks.py` computes distances
with the haversine formula (`math.radians`, `math.atan2`);
`analyze_walks_city_specific.py` computes them with shapely's planar
`Point.distance` directly on the raw coordinates.  Both are embedded
over `ℝ`.
-/

/-- `math.radians(x)`: degree-to-radian conversion. -/
noncomputable def radians (x : ℝ) : ℝ := x * Real.pi / 180

/-- `math.atan2(y, x)`: the two-argument arctangent.  (The haversine
code only ever reaches the region `y ≥ 0`, `x ≥ 0`.) -/
noncomputable def atan2 (y x : ℝ) : ℝ :=
  if 0 < x then Real.arctan (y / x)
  else if x < 0 then
    (if 0 ≤ y then Real.arctan (y / x) + Real.pi else Real.arctan (y / x) - Real.pi)
  else if 0 < y then Real.pi / 2
  else if y < 0 then -(Real.pi / 2)
  else 0

/-- Sum of distances between consecutive points,
`for i in range(len(coords)-1): path_distance += d(coords[i], coords[i+1])`. -/
noncomputable def path_sum {α : Type} (d : α → α → ℝ) : List α → ℝ
  | [] => 0
  | [_] => 0
  | x :: y :: t => d x y + path_sum d (y :: t)

/-- Shapely `Point(p).distance(Point(q))`: planar Euclidean distance on
the raw coordinates (whatever their unit). -/
noncomputable def point_distance (p q : ℝ × ℝ) : ℝ :=
  Real.sqrt ((q.1 - p.1) ^ 2 + (q.2 - p.2) ^ 2)

namespace AnalyzeWalks

/-- `haversine_distance(lat1, lon1, lat2, lon2)` from
`src/scripts/analyze_walks.py` (lines 13-23): great-circle distance in
kilometers with Earth radius `R = 6371`. -/
noncomputable def haversine_distance (lat1 lon1 lat2 lon2 : ℝ) : ℝ :=
  let R : ℝ := 6371
  let lat1' := radians lat1
  let lon1' := radians lon1
  let lat2' := radians lat2
  let lon2' := radians lon2
  let dlat := lat2' - lat1'
  let dlon := lon2' - lon1'
  let a := Real.sin (dlat / 2) ^ 2 +
    Real.cos lat1' * Real.cos lat2' * Real.sin (dlon / 2) ^ 2
  let c := 2 * atan2 (Real.sqrt a) (Real.sqrt (1 - a))
  R * c

/-- `haversine_distance` applied to a pair of shapely coordinate tuples
`(x, y) = (lon, lat)`, in the argument order the callers use:
`haversine_distance(p[1], p[0], q[1], q[0])`. -/
noncomputable def haversine_pair (p q : ℝ × ℝ) : ℝ :=
  haversine_distance p.2 p.1 q.2 q.1

/-- `calculate_segment_metrics(coords, timestamps)` from
`src/scripts/analyze_walks.py` (lines 50-94).  Returns `None` for fewer
than 2 coordinates.  Timestamps are modelled as already-parsed epoch
seconds (the `isinstance(timestamps[0], str)` branch of the source
parses ISO strings into the same values); the source indexes
`timestamps[0]` and `timestamps[-1]`, assuming the list parallels
`coords` as all callers arrange, which `headD`/`getLastD` mirror. -/
noncomputable def calculate_segment_metrics (coords : List (ℝ × ℝ))
    (timestamps : List ℝ) : Option (SegMetrics ℝ) :=
  if coords.length < 2 then none
  else
    let start_point := coords.headD (0, 0)        -- coords[0]
    let end_point := coords.getLastD (0, 0)       -- coords[-1]
    let direct_distance := haversine_pair start_point end_point
    let path_distance := path_sum haversine_pair coords
    let duration := (timestamps.getLastD 0 - timestamps.headD 0) / 3600
    let avg_speed := if duration > 0 then path_distance / duration else 0
    let sinuosity := if direct_distance > 0 then path_distance / direct_distance else 1
    let point_density : WithTop ℝ :=
      if path_distance > 0 then (((coords.length : ℝ) / path_distance : ℝ) : WithTop ℝ)
      else ⊤
    some
      { direct_distance := direct_distance
        path_distance := path_distance
        duration_hours := duration
        avg_speed_kmh := avg_speed
        sinuosity := sinuosity
        point_density := point_density }

end AnalyzeWalks

namespace CitySpec

/-- A row of the walks GeoDataFrame as consumed by
`analyze_walks_city_specific.calculate_path_metrics`: parsed start/end
timestamps in epoch seconds (`none` models a `pd.to_datetime` failure,
caught by the `try/except` around the parse) and the raw coordinate
list of the path geometry. -/
structure PathRow : Type where
  start_time : Option ℝ
  end_time : Option ℝ
  geometry : List (ℝ × ℝ)

/-- `calculate_path_metrics(path, city)` from
`analyze_walks_city_specific.py` (lines 39-89): after timestamp parsing
(failure returns `None`) and a `len(coords) < 2` guard (returns
`None`), the direct and path distances are shapely `Point.distance`
values computed directly on the raw coordinates of the geometry, with
`avg_speed = path/duration` guarded by `duration > 0` and
`sinuosity = path/direct` guarded by `direct > 0` (else 1). -/
noncomputable def calculate_path_metrics (path : PathRow) (_city : City) :
    Option (Metrics ℝ) :=
  match path.start_time, path.end_time with
  | some start_time, some end_time =>
    let duration := end_time - start_time
    match path.geometry with
    | p0 :: p1 :: rest =>
      let coords := p0 :: p1 :: rest
      let direct_distance := point_distance p0 (coords.getLastD (0, 0))
      let path_distance := path_sum point_distance coords
      let avg_speed := if duration > 0 then path_distance / duration else 0
      let sinuosity := if direct_distance > 0 then path_distance / direct_distance else 1
      some
        { duration := duration
          path_distance := path_distance
          direct_distance := direct_distance
          avg_speed := avg_speed
          sinuosity := sinuosity }
    | _ => none                -- `if len(coords) < 2: return None`
  | _, _ => none               -- timestamp parse failure: `return None`

/-- `is_probable_transit(path, city)` from
`analyze_walks_city_specific.py` (lines 91-115): `False` when metrics
are absent, otherwise the same four threshold rules as
`walk_analyzer.is_probable_transit`. -/
noncomputable def is_probable_transit (path : PathRow) (city : City) : Bool :=
  let params : Params ℝ := CITY_PARAMS city
  match calculate_path_metrics path city with
  | none => false
  | some m =>
    -- Check if path is too long to be walking
    if m.direct_distance > params.max_direct_distance then true
    -- Check speed - only filter out if significantly above max walking speed
    else if m.avg_speed > params.max_walking_speed * (12/10) then true
    -- Check if path is too straight (likely a transit route) - only for longer trips
    else if m.direct_distance > 2000 ∧ m.sinuosity < 21/20 then true
    -- Check if path is too slow (likely stopped) - more lenient minimum speed
    else if m.avg_speed < params.min_walking_speed ∧ m.direct_distance > 500 then true
    else false

end CitySpec

/-!
Auxiliary specification vocabulary (used only to state properties, not
taken from the source): chain/length predicates on segment lists and the
overlap-removing concatenation, plus the unit-sphere direction vector
used to relate the haversine formula to a spherical angle.
-/

/-- Every segment after the first begins with the last point of its
predecessor. -/
def chainedB {α : Type} [DecidableEq α] : List (List α) → Bool
  | [] => true
  | [_] => true
  | a :: b :: t => (decide (b.head? = a.getLast?)) && chainedB (b :: t)

/-- Every segment except the last has length exactly `n`. -/
def nonFinalLenB {α : Type} (n : ℕ) : List (List α) → Bool
  | [] => true
  | [_] => true
  | a :: b :: t => (decide (a.length = n)) && nonFinalLenB n (b :: t)

/-- Concatenation of a segment list with the one-point overlaps removed:
the first segment in full, every later segment without its first point. -/
def overlapConcat {α : Type} : List (List α) → List α
  | [] => []
  | s :: t => s ++ (t.map fun u => u.drop 1).flatten

/-- Unit direction vector of the point with latitude `lat` and longitude
`lon` (radians) on the unit sphere. -/
noncomputable def sphVec (lat lon : ℝ) : EuclideanSpace ℝ (Fin 3) :=
  ![Real.cos lat * Real.cos lon, Real.cos lat * Real.sin lon, Real.sin lat]

/-- A coordinate pair viewed as a point of the Euclidean plane. -/
noncomputable def toPlane (p : ℝ × ℝ) : EuclideanSpace ℝ (Fin 2) := ![p.1, p.2]

/-- A walk of two points one degree of longitude apart at the equator,
with a 1000-second duration (coordinates are `(lon, lat)` degree pairs,
as in the repository's GeoJSON data). -/
noncomputable def pathLat0 : CitySpec.PathRow :=
  { start_time := some 0, end_time := some 1000, geometry := [(0, 0), (1, 0)] }

/-- The same walk shifted to latitude 60°N, where one degree of
longitude spans half the ground distance it spans at the equator. -/
noncomputable def pathLat60 : CitySpec.PathRow :=
  { start_time := some 0, end_time := some 1000, geometry := [(0, 60), (1, 60)] }

/-- A 3-unit straight two-point walk along the x-axis with a
1000-second duration, used to exercise the successful-metrics path of
the city-specific calculator. -/
noncomputable def demoWalk : CitySpec.PathRow :=
  { start_time := some 0, end_time := some 1000, geometry := [(0, 0), (3, 0)] }

/-!
Theorems.  Helper lemmas come first, then one theorem per claim of the
specification review (with witnesses and counterexamples where they are
called for).
-/

/-- The trajectory-level metric calculator of `geo_utils.py` returns
`None` on every input: either the timestamp parse fails, or the
`path_geom.crs` attribute access raises `AttributeError`, and both are
swallowed by the blanket `except`. -/
theorem geoUtils_metrics_none {K G : Type} [LinearOrderedField K]
    (path : GdfPath K G) (city : City) :
    GeoUtils.calculate_path_metrics path city = none := by
  rcases path with ⟨st, et, g⟩
  cases st <;> cases et <;> rfl

/-- C2: for every GeoDataFrame input, `geo_utils.calculate_path_metrics`
returns `None` — the `path_geom.crs` access on the shapely geometry
extracted by `path.geometry.iloc[0]` raises `AttributeError` and the
blanket `except` converts the failure into `None`; consequently
`walk_analyzer.is_probable_transit` returns `False` for every input and
the filter in `walk_analyzer.analyze_walks` keeps every trajectory as a
valid walk. -/
theorem C2_crs_attribute_error_voids_filter {K G : Type} [LinearOrderedField K]
    (path : GdfPath K G) (city : City) (walks : List (GdfPath K G)) :
    shapely_geom_crs path.geometry = .error .attributeError ∧
    GeoUtils.calculate_path_metrics path city = none ∧
    WalkAnalyzer.is_probable_transit path city = false ∧
    WalkAnalyzer.valid_walks walks city = walks := by
  refine ⟨rfl, geoUtils_metrics_none path city, ?_, ?_⟩
  · unfold WalkAnalyzer.is_probable_transit
    rw [geoUtils_metrics_none]
  · unfold WalkAnalyzer.valid_walks
    refine List.filter_eq_self.mpr fun w _ => ?_
    unfold WalkAnalyzer.is_probable_transit
    rw [geoUtils_metrics_none]
    rfl

/-- C1 counterexample: a trajectory whose timestamps cannot be parsed
(hence whose Metrics cannot be computed) is classified as *walking*
(`False`) by the trajectory-level classifier
`walk_analyzer.is_probable_transit`, not as transit (`True`) as the
claim states. -/
theorem C1_absent_metrics_counterexample :
    GeoUtils.calculate_path_metrics
        ({ start_time := none, end_time := some 0, geometry := [((0 : ℚ), 1)] } :
          GdfPath ℚ IvGeom) City.london = none ∧
    WalkAnalyzer.is_probable_transit
        ({ start_time := none, end_time := some 0, geometry := [((0 : ℚ), 1)] } :
          GdfPath ℚ IvGeom) City.london = false :=
  ⟨rfl, rfl⟩

/-- C1 (amended): when Metrics cannot be computed, the segment-level
classifier `is_probable_transit_segment` classifies as transit
(`True`), but both trajectory-level classifiers
(`walk_analyzer.is_probable_transit` and
`analyze_walks_city_specific.is_probable_transit`) classify as walking
(`False`). -/
theorem C1_absent_metrics_classification {K G : Type} [LinearOrderedField K] :
    (AnalyzeWalks.is_probable_transit_segment (K := K) none = true) ∧
    (∀ (path : GdfPath K G) (city : City),
      GeoUtils.calculate_path_metrics path city = none →
      WalkAnalyzer.is_probable_transit path city = false) ∧
    (∀ (p : CitySpec.PathRow) (city : City),
      CitySpec.calculate_path_metrics p city = none →
      CitySpec.is_probable_transit p city = false) := by
  refine ⟨rfl, fun path city h => ?_, fun p city h => ?_⟩
  · unfold WalkAnalyzer.is_probable_transit
    rw [h]
  · unfold CitySpec.is_probable_transit
    rw [h]

/-- C1 witness: concrete trajectories with unparseable timestamps are
classified as walking at trajectory level, and an absent segment
metrics record is classified as transit at segment level. -/
theorem C1_absent_metrics_witness :
    AnalyzeWalks.is_probable_transit_segment (K := ℚ) none = true ∧
    WalkAnalyzer.is_probable_transit
        ({ start_time := none, end_time := none, geometry := [((0 : ℚ), 1)] } :
          GdfPath ℚ IvGeom) City.london = false ∧
    CitySpec.is_probable_transit
        { start_time := none, end_time := none, geometry := [] } City.london = false :=
  ⟨(C1_absent_metrics_classification (K := ℚ) (G := IvGeom)).1,
   (C1_absent_metrics_classification (K := ℚ) (G := IvGeom)).2.1 _ _ rfl,
   (C1_absent_metrics_classification (K := ℚ) (G := IvGeom)).2.2 _ _ rfl⟩

/-- C8: for a successfully computed segment metrics record, the
segment-level classifier reports transit exactly when the average speed
exceeds `MAX_WALKING_SPEED = 7` km/h, or the sinuosity is below
`MIN_SINUOSITY = 1.05` over a path longer than 0.5 km with point
density below `MIN_POINT_DENSITY = 50` points/km; otherwise it reports
walking. -/
theorem C8_segment_transit_rule_iff {K : Type} [LinearOrderedField K] (m : SegMetrics K) :
    AnalyzeWalks.is_probable_transit_segment (some m) = true ↔
      (m.avg_speed_kmh > 7 ∨
        (m.sinuosity < 1.05 ∧ m.path_distance > 0.5 ∧
          m.point_density < ((50 : K) : WithTop K))) := by
  have e : AnalyzeWalks.is_probable_transit_segment (some m) =
      (if m.avg_speed_kmh > AnalyzeWalks.MAX_WALKING_SPEED ∨
          (m.sinuosity < AnalyzeWalks.MIN_SINUOSITY ∧ m.path_distance > 1/2 ∧
            m.point_density < ((AnalyzeWalks.MIN_POINT_DENSITY : K) : WithTop K))
        then true else false) := rfl
  rw [e, show (1.05 : K) = 21/20 by norm_num, show (0.5 : K) = 1/2 by norm_num]
  unfold AnalyzeWalks.MAX_WALKING_SPEED AnalyzeWalks.MIN_SINUOSITY
    AnalyzeWalks.MIN_POINT_DENSITY
  split_ifs with h
  · exact iff_of_true rfl h
  · exact iff_of_false (by simp) h

/-- Euclidean distance from a point to itself is zero. -/
theorem point_distance_self (p : ℝ × ℝ) : point_distance p p = 0 := by
  simp [point_distance]

/-- Euclidean distance of the 3-unit axis-aligned example pair. -/
theorem point_distance_demo : point_distance (0, 0) (3, 0) = 3 := by
  unfold point_distance
  norm_num
  rw [show (9 : ℝ) = 3 ^ 2 by norm_num, Real.sqrt_sq (by norm_num : (0:ℝ) ≤ 3)]

/-- Rule body of the trajectory-level classifier as a disjunction. -/
theorem transit_rules_iff {K : Type} [LinearOrderedField K]
    (params : Params K) (m : Metrics K) :
    WalkAnalyzer.transit_rules params m = true ↔
      (m.direct_distance > params.max_direct_distance ∨
        m.avg_speed > params.max_walking_speed * (12/10) ∨
        (m.direct_distance > 2000 ∧ m.sinuosity < 21/20) ∨
        (m.avg_speed < params.min_walking_speed ∧ m.direct_distance > 500)) := by
  unfold WalkAnalyzer.transit_rules
  split_ifs with h1 h2 h3 h4
  · exact iff_of_true rfl (Or.inl h1)
  · exact iff_of_true rfl (Or.inr (Or.inl h2))
  · exact iff_of_true rfl (Or.inr (Or.inr (Or.inl h3)))
  · exact iff_of_true rfl (Or.inr (Or.inr (Or.inr h4)))
  · refine iff_of_false (by simp) ?_
    rintro (h | h | h | h)
    exacts [h1 h, h2 h, h3 h, h4 h]

/-- On a successfully computed metrics record, the city-specific
classifier coincides with the shared rule body. -/
theorem citySpec_transit_eq_rules (p : CitySpec.PathRow) (city : City) (m : Metrics ℝ)
    (h : CitySpec.calculate_path_metrics p city = some m) :
    CitySpec.is_probable_transit p city =
      WalkAnalyzer.transit_rules (CITY_PARAMS city) m := by
  unfold CitySpec.is_probable_transit WalkAnalyzer.transit_rules
  rw [h]

/-- Lengths in the interval model are nonnegative. -/
theorem ivgLength_nonneg (g : IvGeom) : 0 ≤ ivgLength g := by
  refine List.sum_nonneg fun x hx => ?_
  rcases List.mem_map.mp hx with ⟨i, _, rfl⟩
  exact le_max_left 0 _

/-- Emptiness of a pairwise intersection, component by component. -/
theorem ivgEmpty_inter_iff (g h : IvGeom) :
    ivgEmpty (ivgInter g h) = true ↔ ∀ i ∈ g, ∀ j ∈ h, min i.2 j.2 < max i.1 j.1 := by
  simp only [ivgEmpty, ivgInter, ivEmptyB, ivInter, List.all_eq_true, List.mem_flatten,
    List.mem_map, decide_eq_true_eq]
  constructor
  · intro H i hi j hj
    exact H (max i.1 j.1, min i.2 j.2) ⟨h.map (ivInter i), ⟨i, hi, rfl⟩,
      List.mem_map.mpr ⟨j, hj, rfl⟩⟩
  · rintro H x ⟨t, ⟨i, hi, rfl⟩, hx⟩
    rcases List.mem_map.mp hx with ⟨j, hj, rfl⟩
    exact H i hi j hj

/-- If two interval geometries do not intersect, their intersection in
the opposite order is empty. -/
theorem iv_IE (g h : IvGeom) (hf : ivgIntersects g h = false) :
    ivgEmpty (ivgInter h g) = true := by
  have h1 : ivgEmpty (ivgInter g h) = true := by
    unfold ivgIntersects at hf
    simpa using hf
  rw [ivgEmpty_inter_iff] at h1 ⊢
  intro i hi j hj
  rw [min_comm, max_comm]
  exact h1 j hj i hi

/-- Empty overlap with two geometries gives empty overlap with their union. -/
theorem iv_EU (s g h : IvGeom) (h1 : ivgEmpty (ivgInter s g) = true)
    (h2 : ivgEmpty (ivgInter s h) = true) :
    ivgEmpty (ivgInter s (ivgUnion g h)) = true := by
  rw [ivgEmpty_inter_iff] at h1 h2 ⊢
  intro i hi j hj
  rcases List.mem_append.mp hj with hj | hj
  · exact h1 i hi j hj
  · exact h2 i hi j hj

/-- Folding `union` over buffers that all have empty overlap with the
street yields a combined buffer with empty overlap with the street. -/
theorem foldl_union_empty {K G : Type} [LinearOrderedField K] (A : GeoModel K G)
    (hEU : ∀ s g h, A.is_empty (A.intersection s g) = true →
      A.is_empty (A.intersection s h) = true →
      A.is_empty (A.intersection s (A.union g h)) = true)
    (street : G) :
    ∀ (rest : List G) (b0 : G), A.is_empty (A.intersection street b0) = true →
      (∀ b ∈ rest, A.is_empty (A.intersection street b) = true) →
      A.is_empty (A.intersection street (rest.foldl A.union b0)) = true := by
  intro rest
  induction rest with
  | nil => exact fun b0 h0 _ => h0
  | cons x xs ih =>
    intro b0 h0 hall
    exact ih (A.union b0 x) (hEU street b0 x h0 (hall x (List.mem_cons_self x xs)))
      fun b hb => hall b (List.mem_cons_of_mem x hb)

/-- C5: the per-street coverage percentage produced by each of the three
coverage computations lies in `[0, 100]` whenever a value is produced:
it is 0 when no walk buffer intersects the street, and it is capped at
100 even when overlapping buffers each contribute intersection length.
The hypotheses are facts of the underlying geometry library: lengths
are nonnegative, geometries that do not intersect have an empty
intersection, and a union of overlaps that are empty is empty. -/
theorem C5_coverage_percent_range {K G : Type} [LinearOrderedField K] (A : GeoModel K G)
    (street : G) (bufs : List G) (walks : List G) (bd : K)
    (hlen : ∀ g, 0 ≤ A.length g)
    (hIE : ∀ g h, A.intersects g h = false → A.is_empty (A.intersection h g) = true)
    (hEU : ∀ s g h, A.is_empty (A.intersection s g) = true →
      A.is_empty (A.intersection s h) = true →
      A.is_empty (A.intersection s (A.union g h)) = true) :
    (∀ v, GeoUtils.calculate_coverage A street bufs = .ok v → 0 ≤ v ∧ v ≤ 100) ∧
    (∀ c v, MatchWalks.street_coverage A street bufs = .ok (c, v) → 0 ≤ v ∧ v ≤ 100) ∧
    (0 ≤ (CitySpec.street_coverage A street walks bd).1 ∧
      (CitySpec.street_coverage A street walks bd).1 ≤ 100) ∧
    ((∀ b ∈ bufs, A.intersects b street = false) →
      GeoUtils.calculate_coverage A street bufs = .ok 0 ∧
      MatchWalks.street_coverage A street bufs = .ok (false, 0)) ∧
    ((∀ w ∈ walks, A.intersects (A.buffer w bd) street = false) →
      CitySpec.street_coverage A street walks bd = (0, false)) := by
  refine ⟨?_, ?_, ?_, ?_, ?_⟩
  · -- geo_utils.calculate_coverage stays in [0, 100]
    intro v hv
    cases bufs with
    | nil =>
      simp only [GeoUtils.calculate_coverage, Except.ok.injEq] at hv
      subst hv
      norm_num
    | cons b0 rest =>
      simp only [GeoUtils.calculate_coverage] at hv
      split_ifs at hv with he
      · simp only [Except.ok.injEq] at hv
        subst hv
        norm_num
      · unfold pydiv at hv
        split_ifs at hv with hz
        · simp [Except.map] at hv
        · simp only [Except.map, Except.ok.injEq] at hv
          subst hv
          have hs : 0 < A.length street := lt_of_le_of_ne (hlen street) (Ne.symm hz)
          have hq : 0 ≤ A.length (A.intersection street (rest.foldl A.union b0)) /
              A.length street := div_nonneg (hlen _) hs.le
          exact ⟨le_min (by positivity) (by norm_num), min_le_right _ _⟩
  · -- match_walks_to_streets stays in [0, 100]
    intro c v hv
    simp only [MatchWalks.street_coverage] at hv
    split_ifs at hv with he
    · simp only [Except.ok.injEq, Prod.mk.injEq] at hv
      rw [← hv.2]
      norm_num
    · unfold pydiv at hv
      split_ifs at hv with hz
      · simp [Except.map] at hv
      · simp only [Except.map, Except.ok.injEq, Prod.mk.injEq] at hv
        rw [← hv.2]
        have hs : 0 < A.length street := lt_of_le_of_ne (hlen street) (Ne.symm hz)
        have hcl : 0 ≤ (((bufs.filter fun b => A.intersects b street).map fun b =>
            let inter := A.intersection street b
            if A.is_empty inter then 0
            else if A.is_lineal inter then A.length inter else 0).sum : K) := by
          refine List.sum_nonneg fun x hx => ?_
          rcases List.mem_map.mp hx with ⟨b, _, rfl⟩
          dsimp only
          split_ifs <;> first | rfl | exact hlen _
        refine ⟨le_min (by norm_num) (by positivity), min_le_left _ _⟩
  · -- city-specific per-street coverage stays in [0, 100]
    unfold CitySpec.street_coverage
    split_ifs with hs
    · have hcl : 0 ≤ ((walks.map fun w =>
          let buffered_walk := A.buffer w bd
          let inter := A.intersection street buffered_walk
          if A.is_empty inter then 0 else A.length inter).sum : K) := by
        refine List.sum_nonneg fun x hx => ?_
        rcases List.mem_map.mp hx with ⟨w, _, rfl⟩
        dsimp only
        split_ifs <;> first | rfl | exact hlen _
      have hq : (0:K) ≤ (walks.map fun w =>
          let buffered_walk := A.buffer w bd
          let inter := A.intersection street buffered_walk
          if A.is_empty inter then 0 else A.length inter).sum / A.length street * 100 := by
        positivity
      exact ⟨le_min hq (by norm_num), min_le_right _ _⟩
    · norm_num
  · -- no intersecting buffer: both accumulating versions report 0
    intro hb
    constructor
    · cases bufs with
      | nil => rfl
      | cons b0 rest =>
        have hempty : A.is_empty (A.intersection street (rest.foldl A.union b0)) = true :=
          foldl_union_empty A hEU street rest b0
            (hIE b0 street (hb b0 (List.mem_cons_self b0 rest)))
            fun b hbm => hIE b street (hb b (List.mem_cons_of_mem b0 hbm))
        simp only [GeoUtils.calculate_coverage]
        rw [if_pos hempty]
    · have hfil : (bufs.filter fun b => A.intersects b street) = [] :=
        List.filter_eq_nil_iff.mpr fun b hbm => by
          rw [hb b hbm]
          exact Bool.false_ne_true
      simp only [MatchWalks.street_coverage, hfil]
      rfl
  · -- no intersecting buffered walk: city-specific version reports (0, false)
    intro hw
    unfold CitySpec.street_coverage
    have hcl : ((walks.map fun w =>
        let buffered_walk := A.buffer w bd
        let inter := A.intersection street buffered_walk
        if A.is_empty inter then 0 else A.length inter).sum : K) = 0 := by
      refine List.sum_eq_zero fun x hx => ?_
      rcases List.mem_map.mp hx with ⟨w, hwm, rfl⟩
      dsimp only
      rw [if_pos (hIE _ _ (hw w hwm))]
    rw [hcl]
    split_ifs with hs
    · simp
    · rfl

/-- Concrete run: a 2-unit street half-overlapped by a single buffer
gets coverage 50 from `geo_utils.calculate_coverage`. -/
theorem eval_geo_coverage_half :
    GeoUtils.calculate_coverage ivModel [((0:ℚ), 2)] [[((0:ℚ), 1)]] = .ok 50 := by
  simp [GeoUtils.calculate_coverage, ivModel, ivgInter, ivgEmpty, ivEmptyB, ivInter,
    ivgLength, ivLen, pydiv, Except.map]
  norm_num

/-- Concrete run: the walk at `[5, 6]`, buffered by 1, stays clear of
the street `[0, 2]`. -/
theorem eval_no_buffered_walk :
    ∀ w ∈ [[((5:ℚ), 6)]], ivModel.intersects (ivModel.buffer w 1) [((0:ℚ), 2)] = false := by
  intro w hw
  simp only [List.mem_singleton] at hw
  subst hw
  simp [ivModel, ivgIntersects, ivgBuffer, ivgInter, ivgEmpty, ivEmptyB, ivInter]
  norm_num

/-- C5 witness: a 2-unit street half-overlapped by one buffer gets
coverage 50, inside `[0, 100]`; a street away from every buffered walk
gets `(0, false)` from the city-specific computation. -/
theorem C5_coverage_percent_range_witness :
    ((0:ℚ) ≤ 50 ∧ (50:ℚ) ≤ 100) ∧
    CitySpec.street_coverage ivModel [((0:ℚ), 2)] [[((5:ℚ), 6)]] 1 = (0, false) :=
  ⟨(C5_coverage_percent_range ivModel [((0:ℚ), 2)] [[((0:ℚ), 1)]] [[((0:ℚ), 1)]] 1
      ivgLength_nonneg iv_IE iv_EU).1 50 eval_geo_coverage_half,
   (C5_coverage_percent_range ivModel [((0:ℚ), 2)] [[((0:ℚ), 1)]] [[((5:ℚ), 6)]] 1
      ivgLength_nonneg iv_IE iv_EU).2.2.2.2 eval_no_buffered_walk⟩

/-- C6 counterexample: in `match_walks_to_streets` a walk buffer that
only touches the street at a single point makes the street `covered`
(`True`) while its accumulated `coverage_percent` stays 0, so
`covered = (coverage_percent > 0)` fails. -/
theorem C6_covered_flag_counterexample :
    MatchWalks.street_coverage ivModel [((0:ℚ), 1)] [[((-1 : ℚ), 0)]] = .ok (true, 0) ∧
    decide ((0:ℚ) > 0) = false := by
  constructor
  · simp [MatchWalks.street_coverage, ivModel, ivgIntersects, ivgInter, ivgEmpty,
      ivEmptyB, ivInter, ivgLineal, ivgLength, ivLen, pydiv, Except.map,
      List.filter]
  · norm_num

/-- C6 (amended): in `walk_analyzer.analyze_walks` the per-street update
satisfies `covered = (coverage_percent > 0)` exactly; in
`match_walks_to_streets`, `covered` is set when some walk buffer
spatially intersects the street, which implies only the direction
`coverage_percent > 0 → covered`. -/
theorem C6_covered_flag_amended {K G : Type} [LinearOrderedField K] (A : GeoModel K G)
    (street : G) (bufs : List G) :
    (∀ cp cov, WalkAnalyzer.street_update A street bufs = .ok (cp, cov) →
      cov = decide (cp > 0)) ∧
    (∀ cov cp, MatchWalks.street_coverage A street bufs = .ok (cov, cp) →
      (0 < cp → cov = true)) := by
  constructor
  · intro cp cov hv
    unfold WalkAnalyzer.street_update at hv
    cases hres : GeoUtils.calculate_coverage A street bufs with
    | error e => rw [hres] at hv; simp [Except.map] at hv
    | ok q =>
      rw [hres] at hv
      simp only [Except.map, Except.ok.injEq, Prod.mk.injEq] at hv
      rw [← hv.1, ← hv.2]
  · intro cov cp hv hcp
    simp only [MatchWalks.street_coverage] at hv
    split_ifs at hv with he
    · simp only [Except.ok.injEq, Prod.mk.injEq] at hv
      rw [← hv.2] at hcp
      exact absurd hcp (lt_irrefl 0)
    · unfold pydiv at hv
      split_ifs at hv with hz
      · simp [Except.map] at hv
      · simp only [Except.map, Except.ok.injEq, Prod.mk.injEq] at hv
        exact hv.1.symm

/-- C6 witness: on a street half-covered by one buffer,
`walk_analyzer` stores `covered = (50 > 0) = True` and
`match_walks_to_streets` reports `covered = True` with positive
coverage. -/
theorem C6_covered_flag_witness :
    ((true : Bool) = decide ((50:ℚ) > 0)) ∧ ((true : Bool) = true) :=
  ⟨(C6_covered_flag_amended ivModel [((0:ℚ), 2)] [[((0:ℚ), 1)]]).1 50 true
      (by rw [WalkAnalyzer.street_update, eval_geo_coverage_half]; norm_num [Except.map]),
   (C6_covered_flag_amended ivModel [((0:ℚ), 2)] [[((0:ℚ), 1)]]).2 true 50
      (by simp only [MatchWalks.street_coverage, ivModel] ; norm_num [ivgIntersects,
            ivgInter, ivgEmpty, ivEmptyB, ivInter, ivgLineal, ivgLength, ivLen, pydiv,
            Except.map, List.filter])
     (by norm_num)⟩

/-- C7 counterexample: `geo_utils.calculate_coverage` has no zero-length
guard — a zero-length street whose (degenerate) geometry lies inside a
walk buffer reaches the division and raises `ZeroDivisionError` instead
of returning a 0 sentinel. -/
theorem C7_degenerate_street_counterexample :
    GeoUtils.calculate_coverage ivModel [((0:ℚ), 0)] [[((-1:ℚ), 1)]] =
      .error .zeroDivisionError := by
  simp [GeoUtils.calculate_coverage, ivModel, ivgInter, ivgEmpty, ivEmptyB, ivInter,
    ivgLength, ivLen, pydiv, Except.map]

/-- C7 (amended): only the city-specific coverage loop guards
`street_length > 0`, leaving `(0, False)` for a zero-length street; the
`geo_utils` and `match_walks_to_streets` computations return 0 without
raising only on the no-intersection paths (empty buffer list, empty
combined intersection, no intersecting buffer) and otherwise divide by
the zero street length. -/
theorem C7_degenerate_street_amended {K G : Type} [LinearOrderedField K] (A : GeoModel K G)
    (street : G) (bufs : List G) (walks : List G) (bd : K) :
    (¬ A.length street > 0 → CitySpec.street_coverage A street walks bd = (0, false)) ∧
    (GeoUtils.calculate_coverage A street [] = .ok 0) ∧
    ((∀ b ∈ bufs, A.intersects b street = false) →
      MatchWalks.street_coverage A street bufs = .ok (false, 0)) := by
  refine ⟨?_, rfl, ?_⟩
  · intro hs
    unfold CitySpec.street_coverage
    rw [if_neg hs]
  · intro hb
    have hfil : (bufs.filter fun b => A.intersects b street) = [] :=
      List.filter_eq_nil_iff.mpr fun b hbm => by
        rw [hb b hbm]
        exact Bool.false_ne_true
    simp only [MatchWalks.street_coverage, hfil]
    rfl

/-- C7 witness: a zero-length street keeps `(0, False)` in the
city-specific loop, and the non-intersecting paths of the other two
computations return 0 without an exception. -/
theorem C7_degenerate_street_witness :
    CitySpec.street_coverage ivModel [((0:ℚ), 0)] [[((0:ℚ), 1)]] 1 = (0, false) ∧
    GeoUtils.calculate_coverage ivModel [((0:ℚ), 0)] [] = .ok 0 ∧
    MatchWalks.street_coverage ivModel [((0:ℚ), 0)] [[((5:ℚ), 6)]] = .ok (false, 0) :=
  ⟨(C7_degenerate_street_amended ivModel [((0:ℚ), 0)] [[((5:ℚ), 6)]] [[((0:ℚ), 1)]] 1).1
      (by norm_num [ivModel, ivgLength, ivLen]),
   (C7_degenerate_street_amended ivModel [((0:ℚ), 0)] [[((5:ℚ), 6)]] [[((0:ℚ), 1)]] 1).2.1,
   (C7_degenerate_street_amended ivModel [((0:ℚ), 0)] [[((5:ℚ), 6)]] [[((0:ℚ), 1)]] 1).2.2
      (by intro b hb
          simp only [List.mem_singleton] at hb
          subst hb
          simp [ivModel, ivgIntersects, ivgInter, ivgEmpty, ivEmptyB, ivInter]
          )⟩

/-- C4: the city-specific Metrics Calculator computes `direct_distance`
directly on raw degree coordinates — a 1-degree longitude step yields
`direct_distance = 1` (the raw coordinate difference, against thresholds
documented in meters), and the value is identical at latitude 0 and at
latitude 60 even though the ground distance differs by a factor of two;
no haversine computation or reprojection takes place. -/
theorem C4_degree_space_direct_distance :
    (CitySpec.calculate_path_metrics pathLat0 City.london).map Metrics.direct_distance =
      some 1 ∧
    (CitySpec.calculate_path_metrics pathLat60 City.london).map Metrics.direct_distance =
      some 1 := by
  have h0 : point_distance 0 (1, 0) = 1 := by
    unfold point_distance
    norm_num
  have h60 : point_distance (0, 60) (1, 60) = 1 := by
    unfold point_distance
    norm_num
  constructor
  · unfold CitySpec.calculate_path_metrics pathLat0
    norm_num [path_sum, h0, Option.map]
  · unfold CitySpec.calculate_path_metrics pathLat60
    norm_num [path_sum, h60, Option.map]

/-- Metrics of the demo walk under the city-specific calculator. -/
theorem demoWalk_metrics :
    CitySpec.calculate_path_metrics demoWalk City.london =
      some { duration := 1000, path_distance := 3, direct_distance := 3,
             avg_speed := 3 / 1000, sinuosity := 1 } := by
  have hpd : point_distance 0 (3, 0) = 3 := point_distance_demo
  unfold CitySpec.calculate_path_metrics demoWalk
  norm_num [path_sum, hpd]

/-- Unfolding equation of the splitter loop on an exhausted input. -/
theorem split_go_nil {α : Type} (N : ℕ) (cur : List α) :
    AnalyzeWalks.split_go N cur [] = if 2 ≤ cur.length then [cur] else [] := rfl

/-- Unfolding equation of the splitter loop on one more point. -/
theorem split_go_cons {α : Type} (N : ℕ) (cur : List α) (x : α) (rest : List α) :
    AnalyzeWalks.split_go N cur (x :: rest) =
      if N ≤ (cur ++ [x]).length then
        (if 2 ≤ (cur ++ [x]).length then [cur ++ [x]] else []) ++
          AnalyzeWalks.split_go N [x] rest
      else
        AnalyzeWalks.split_go N (cur ++ [x]) rest := rfl

/-- Invariant of the segment-splitting loop: starting from a non-empty
current run shorter than `segment_size`, every emitted segment has
between 2 and `segment_size` points, all but the last have exactly
`segment_size`, consecutive segments overlap in exactly the restart
point, the result is empty only when nothing but the single overlap
point was left, and concatenating the segments with overlaps removed
reconstructs the remaining input prefixed by the current run. -/
theorem split_go_spec {α : Type} [DecidableEq α] (N : ℕ) (hN : 2 ≤ N) :
    ∀ (rest cur : List α), cur ≠ [] → cur.length < N →
      (∀ s ∈ AnalyzeWalks.split_go N cur rest, 2 ≤ s.length ∧ s.length ≤ N) ∧
      nonFinalLenB N (AnalyzeWalks.split_go N cur rest) = true ∧
      chainedB (AnalyzeWalks.split_go N cur rest) = true ∧
      (∀ s, (AnalyzeWalks.split_go N cur rest).head? = some s → ∃ u, s = cur ++ u) ∧
      (AnalyzeWalks.split_go N cur rest = [] → rest = [] ∧ cur.length = 1) ∧
      (AnalyzeWalks.split_go N cur rest ≠ [] →
        overlapConcat (AnalyzeWalks.split_go N cur rest) = cur ++ rest) := by
  intro rest
  induction rest with
  | nil =>
    intro cur hne hlt
    by_cases h2 : 2 ≤ cur.length
    · have e : AnalyzeWalks.split_go N cur [] = [cur] := by
        rw [split_go_nil, if_pos h2]
      rw [e]
      refine ⟨?_, rfl, rfl, ?_, ?_, ?_⟩
      · intro s hs
        rw [List.mem_singleton] at hs
        subst hs
        exact ⟨h2, le_of_lt hlt⟩
      · intro s hs
        simp only [List.head?_cons, Option.some.injEq] at hs
        exact ⟨[], by rw [← hs, List.append_nil]⟩
      · intro h
        simp at h
      · intro _
        simp [overlapConcat]
    · have e : AnalyzeWalks.split_go N cur [] = [] := by
        rw [split_go_nil, if_neg h2]
      rw [e]
      have h1 : 1 ≤ cur.length := List.length_pos.mpr hne
      refine ⟨by simp, rfl, rfl, by simp, fun _ => ⟨rfl, by omega⟩, by simp⟩
  | cons x rest ih =>
    intro cur hne hlt
    by_cases hfull : N ≤ (cur ++ [x]).length
    · have hlen' : (cur ++ [x]).length = N := by
        rw [List.length_append] at hfull ⊢
        simp at hfull ⊢
        omega
      have h2' : 2 ≤ (cur ++ [x]).length := by omega
      have e : AnalyzeWalks.split_go N cur (x :: rest) =
          (cur ++ [x]) :: AnalyzeWalks.split_go N [x] rest := by
        rw [split_go_cons, if_pos hfull, if_pos h2']
        rfl
      have hx1 : ([x] : List α) ≠ [] := by simp
      have hx2 : ([x] : List α).length < N := by simp; omega
      obtain ⟨ihmem, ihnf, ihch, ihhead, ihemp, ihoc⟩ := ih [x] hx1 hx2
      rw [e]
      refine ⟨?_, ?_, ?_, ?_, ?_, ?_⟩
      · intro s hs
        rcases List.mem_cons.mp hs with rfl | hs
        · exact ⟨h2', le_of_eq hlen'⟩
        · exact ihmem s hs
      · cases hres2 : AnalyzeWalks.split_go N [x] rest with
        | nil => rfl
        | cons b t =>
          show ((decide ((cur ++ [x]).length = N)) && nonFinalLenB N (b :: t)) = true
          rw [hlen', ← hres2, ihnf]
          simp
      · cases hres2 : AnalyzeWalks.split_go N [x] rest with
        | nil => rfl
        | cons b t =>
          show ((decide (b.head? = (cur ++ [x]).getLast?)) && chainedB (b :: t)) = true
          obtain ⟨u, hu⟩ := ihhead b (by rw [hres2]; rfl)
          have hb : b.head? = some x := by rw [hu]; rfl
          have hl : (cur ++ [x]).getLast? = some x := List.getLast?_concat _
          rw [hb, hl, ← hres2, ihch]
          simp
      · intro s hs
        simp only [List.head?_cons, Option.some.injEq] at hs
        exact ⟨[x], hs.symm⟩
      · intro h
        simp at h
      · intro _
        cases hres2 : AnalyzeWalks.split_go N [x] rest with
        | nil =>
          obtain ⟨hrest, _⟩ := ihemp hres2
          subst hrest
          simp [overlapConcat]
        | cons b t =>
          have hocr : overlapConcat (AnalyzeWalks.split_go N [x] rest) = [x] ++ rest :=
            ihoc (by rw [hres2]; simp)
          rw [hres2] at hocr
          obtain ⟨u, hu⟩ := ihhead b (by rw [hres2]; rfl)
          have hb : b = x :: u := by rw [hu]; rfl
          show (cur ++ [x]) ++ ((b :: t).map fun s => s.drop 1).flatten = cur ++ (x :: rest)
          have hstep : ((b :: t).map fun s => s.drop 1).flatten =
              u ++ ((t.map fun s => s.drop 1).flatten) := by
            rw [hb]
            simp
          rw [hstep]
          have hexp : (x :: u) ++ ((t.map fun s => s.drop 1).flatten) = x :: rest := by
            rw [← hb]
            exact hocr
          have hur : u ++ ((t.map fun s => s.drop 1).flatten) = rest := by
            simpa using hexp
          rw [hur, List.append_assoc]
          rfl
    · have e : AnalyzeWalks.split_go N cur (x :: rest) =
          AnalyzeWalks.split_go N (cur ++ [x]) rest := by
        rw [split_go_cons, if_neg hfull]
      have hne' : cur ++ [x] ≠ [] := by simp
      have hlt' : (cur ++ [x]).length < N := by
        have hl : (cur ++ [x]).length = cur.length + 1 := by simp
        omega
      obtain ⟨ihmem, ihnf, ihch, ihhead, ihemp, ihoc⟩ := ih (cur ++ [x]) hne' hlt'
      rw [e]
      refine ⟨ihmem, ihnf, ihch, ?_, ?_, ?_⟩
      · intro s hs
        obtain ⟨u, hu⟩ := ihhead s hs
        exact ⟨x :: u, by rw [hu, List.append_assoc]; rfl⟩
      · intro h
        obtain ⟨_, hcl⟩ := ihemp h
        exfalso
        have hlp := List.length_pos.mpr hne
        have hcl' : cur.length + 1 = 1 := by simpa using hcl
        omega
      · intro h
        rw [ihoc h, List.append_assoc]
        rfl

/-- Concatenation with overlaps removed never exceeds the total point
count of the segments. -/
theorem length_overlapConcat_le {α : Type} (l : List (List α)) :
    (overlapConcat l).length ≤ (l.map List.length).sum := by
  cases l with
  | nil => simp [overlapConcat]
  | cons s t =>
    simp only [overlapConcat, List.length_append, List.map_cons, List.sum_cons,
      List.length_flatten, List.map_map]
    have : ∀ u ∈ t, (List.length ∘ fun s => s.drop 1) u ≤ List.length u := by
      intro u _
      simp [List.length_drop]
    exact add_le_add_left (List.sum_le_sum this) s.length

/-- Top-level form of the splitter invariant, on the zipped input. -/
theorem split_go_top {α : Type} [DecidableEq α] (N : ℕ) (hN : 2 ≤ N)
    (xs : List α) (hL : 2 ≤ xs.length) :
    (∀ s ∈ AnalyzeWalks.split_go N [] xs, 2 ≤ s.length) ∧
    nonFinalLenB N (AnalyzeWalks.split_go N [] xs) = true ∧
    chainedB (AnalyzeWalks.split_go N [] xs) = true ∧
    overlapConcat (AnalyzeWalks.split_go N [] xs) = xs ∧
    xs.length ≤ ((AnalyzeWalks.split_go N [] xs).map List.length).sum := by
  cases xs with
  | nil => simp at hL
  | cons x rest =>
    have e : AnalyzeWalks.split_go N [] (x :: rest) =
        AnalyzeWalks.split_go N [x] rest := by
      rw [split_go_cons, if_neg (by simp; omega)]
      rfl
    have hx1 : ([x] : List α) ≠ [] := by simp
    have hx2 : ([x] : List α).length < N := by simp; omega
    obtain ⟨hmem, hnf, hch, hhead, hemp, hoc⟩ := split_go_spec N hN rest [x] hx1 hx2
    have hres_ne : AnalyzeWalks.split_go N [x] rest ≠ [] := by
      intro h
      obtain ⟨hrest, _⟩ := hemp h
      subst hrest
      simp at hL
    have hocx : overlapConcat (AnalyzeWalks.split_go N [x] rest) = x :: rest :=
      hoc hres_ne
    rw [e]
    refine ⟨fun s hs => (hmem s hs).1, hnf, hch, hocx, ?_⟩
    calc (x :: rest).length = (overlapConcat (AnalyzeWalks.split_go N [x] rest)).length := by
          rw [hocx]
      _ ≤ _ := length_overlapConcat_le _

/-- Projecting a component out of every segment preserves the
non-final-length predicate. -/
theorem nonFinalLenB_map {γ δ : Type} (N : ℕ) (f : γ → δ) :
    ∀ l : List (List γ), nonFinalLenB N (l.map (List.map f)) = nonFinalLenB N l := by
  intro l
  induction l with
  | nil => rfl
  | cons a t ih =>
    cases t with
    | nil => rfl
    | cons b t' =>
      have e1 : nonFinalLenB N ((a :: b :: t').map (List.map f)) =
          ((decide ((a.map f).length = N)) && nonFinalLenB N ((b :: t').map (List.map f))) :=
        rfl
      have e2 : nonFinalLenB N (a :: b :: t') =
          ((decide (a.length = N)) && nonFinalLenB N (b :: t')) := rfl
      rw [e1, e2, List.length_map, ih]

/-- Projecting a component out of every segment preserves chaining. -/
theorem chainedB_map {γ δ : Type} [DecidableEq γ] [DecidableEq δ] (f : γ → δ) :
    ∀ l : List (List γ), chainedB l = true → chainedB (l.map (List.map f)) = true := by
  intro l
  induction l with
  | nil => intro _; rfl
  | cons a t ih =>
    cases t with
    | nil => intro _; rfl
    | cons b t' =>
      intro h
      have e2 : chainedB (a :: b :: t') =
          ((decide (b.head? = a.getLast?)) && chainedB (b :: t')) := rfl
      rw [e2, Bool.and_eq_true, decide_eq_true_eq] at h
      have e1 : chainedB ((a :: b :: t').map (List.map f)) =
          ((decide ((b.map f).head? = (a.map f).getLast?)) &&
            chainedB ((b :: t').map (List.map f))) := rfl
      rw [e1, Bool.and_eq_true, decide_eq_true_eq]
      refine ⟨?_, ih h.2⟩
      rw [List.head?_map, List.getLast?_map, h.1]

/-- Dropping the overlap point commutes with projecting a component. -/
theorem flatten_drop_map {γ δ : Type} (f : γ → δ) :
    ∀ t : List (List γ), ((t.map (List.map f)).map fun u => u.drop 1).flatten =
      ((t.map fun u => u.drop 1).flatten).map f := by
  intro t
  induction t with
  | nil => rfl
  | cons u t' ih =>
    simp only [List.map_cons, List.flatten_cons, List.map_append, ih]
    rw [(List.map_drop f u 1).symm]

/-- Overlap-removing concatenation commutes with projecting a component. -/
theorem overlapConcat_map {γ δ : Type} (f : γ → δ) (l : List (List γ)) :
    overlapConcat (l.map (List.map f)) = (overlapConcat l).map f := by
  cases l with
  | nil => rfl
  | cons s t =>
    show (s.map f) ++ ((t.map (List.map f)).map fun u => u.drop 1).flatten =
      (s ++ (t.map fun u => u.drop 1).flatten).map f
    rw [List.map_append, flatten_drop_map]

/-- C9: for a coordinate sequence of length at least 2 with matching
timestamps and segment size at least 2, `split_path_into_segments`
produces segments of at least 2 points each, every non-final segment
has exactly `segment_size` points, each segment begins with the last
point of its predecessor, the segments reconstruct the input exactly
when the one-point overlaps are removed (so the final partial run is
kept exactly when it carries a point beyond the overlap), and the
segment point counts sum to at least the input length. -/
theorem C9_segment_splitter {α β : Type} [DecidableEq α] (coords : List α) (ts : List β)
    (N : ℕ) (hN : 2 ≤ N) (hL : 2 ≤ coords.length) (hts : ts.length = coords.length) :
    (∀ s ∈ (AnalyzeWalks.split_path_into_segments coords ts N).1, 2 ≤ s.length) ∧
    nonFinalLenB N (AnalyzeWalks.split_path_into_segments coords ts N).1 = true ∧
    chainedB (AnalyzeWalks.split_path_into_segments coords ts N).1 = true ∧
    overlapConcat (AnalyzeWalks.split_path_into_segments coords ts N).1 = coords ∧
    coords.length ≤
      ((AnalyzeWalks.split_path_into_segments coords ts N).1.map List.length).sum := by
  classical
  have hzlen : (List.zip coords ts).length = coords.length := by
    rw [List.length_zip, hts, min_self]
  have hz2 : 2 ≤ (List.zip coords ts).length := by rw [hzlen]; exact hL
  obtain ⟨hmem, hnf, hch, hoc, hsum⟩ := split_go_top N hN (List.zip coords ts) hz2
  have e1 : (AnalyzeWalks.split_path_into_segments coords ts N).1 =
      (AnalyzeWalks.split_go N [] (List.zip coords ts)).map (List.map Prod.fst) := rfl
  rw [e1]
  refine ⟨?_, ?_, ?_, ?_, ?_⟩
  · intro s hs
    rcases List.mem_map.mp hs with ⟨t, ht, rfl⟩
    rw [List.length_map]
    exact hmem t ht
  · rw [nonFinalLenB_map]
    exact hnf
  · exact chainedB_map _ _ hch
  · rw [overlapConcat_map, hoc, List.map_fst_zip coords ts (le_of_eq hts.symm)]
  · calc coords.length = (List.zip coords ts).length := hzlen.symm
      _ ≤ ((AnalyzeWalks.split_go N [] (List.zip coords ts)).map List.length).sum := hsum
      _ = (((AnalyzeWalks.split_go N [] (List.zip coords ts)).map
            (List.map Prod.fst)).map List.length).sum := by
          rw [List.map_map]
          congr 1
          refine List.map_congr_left fun s _ => ?_
          simp

/-- C9 witness: splitting seven points with segment size 3 gives three
chained 3-point segments reconstructing the input, with point counts
summing to 9 ≥ 7. -/
theorem C9_segment_splitter_witness :
    (∀ s ∈ (AnalyzeWalks.split_path_into_segments [0, 1, 2, 3, 4, 5, 6]
        [10, 11, 12, 13, 14, 15, 16] 3).1, 2 ≤ s.length) ∧
    nonFinalLenB 3 (AnalyzeWalks.split_path_into_segments [0, 1, 2, 3, 4, 5, 6]
        [10, 11, 12, 13, 14, 15, 16] 3).1 = true ∧
    chainedB (AnalyzeWalks.split_path_into_segments [0, 1, 2, 3, 4, 5, 6]
        [10, 11, 12, 13, 14, 15, 16] 3).1 = true ∧
    overlapConcat (AnalyzeWalks.split_path_into_segments [0, 1, 2, 3, 4, 5, 6]
        [10, 11, 12, 13, 14, 15, 16] 3).1 = [0, 1, 2, 3, 4, 5, 6] ∧
    ([0, 1, 2, 3, 4, 5, 6] : List ℕ).length ≤
      ((AnalyzeWalks.split_path_into_segments [0, 1, 2, 3, 4, 5, 6]
        [10, 11, 12, 13, 14, 15, 16] 3).1.map List.length).sum :=
  C9_segment_splitter [0, 1, 2, 3, 4, 5, 6] ([10, 11, 12, 13, 14, 15, 16] : List ℕ) 3
    (by norm_num) (by norm_num) (by norm_num)

/-- Half-angle identity for the squared sine. -/
theorem sin_sq_half' (x : ℝ) : Real.sin (x/2) ^ 2 = (1 - Real.cos x) / 2 := by
  have h := Real.cos_sq (x/2)
  have hx : 2 * (x/2) = x := by ring
  rw [hx] at h
  have h2 := Real.sin_sq (x/2)
  rw [h2, h]
  ring

/-- The spherical direction vector is a unit vector. -/
theorem sphVec_norm (lat lon : ℝ) : ‖sphVec lat lon‖ = 1 := by
  rw [EuclideanSpace.norm_eq]
  have h : ∑ i, ‖sphVec lat lon i‖ ^ 2 = 1 := by
    simp only [sphVec, Fin.sum_univ_three, Real.norm_eq_abs, sq_abs]
    simp only [Matrix.cons_val_zero, Matrix.cons_val_one, Matrix.head_cons,
      Matrix.cons_val_two, Matrix.tail_cons]
    have h1 := Real.sin_sq_add_cos_sq lat
    have h2 := Real.sin_sq_add_cos_sq lon
    nlinarith [h1, h2]
  rw [h, Real.sqrt_one]

/-- Inner product of two spherical direction vectors. -/
theorem sphVec_inner (p1 l1 p2 l2 : ℝ) :
    ⟪sphVec p1 l1, sphVec p2 l2⟫ =
      Real.cos p1 * Real.cos p2 * Real.cos (l2 - l1) + Real.sin p1 * Real.sin p2 := by
  simp only [sphVec, PiLp.inner_apply, RCLike.inner_apply, starRingEnd_apply, star_trivial,
    Fin.sum_univ_three]
  simp only [Matrix.cons_val_zero, Matrix.cons_val_one, Matrix.head_cons,
    Matrix.cons_val_two, Matrix.tail_cons]
  rw [Real.cos_sub]
  ring

/-- The haversine quantity `a` equals `(1 - cos angle) / 2` for the
central angle between the two direction vectors. -/
theorem hav_a_eq (p1 l1 p2 l2 : ℝ) :
    Real.sin ((p2 - p1)/2) ^ 2 +
      Real.cos p1 * Real.cos p2 * Real.sin ((l2 - l1)/2) ^ 2 =
      (1 - ⟪sphVec p1 l1, sphVec p2 l2⟫) / 2 := by
  rw [sphVec_inner, sin_sq_half' (p2 - p1), sin_sq_half' (l2 - l1), Real.cos_sub]
  ring

/-- The haversine quantity `a` lies in `[0, 1]` for all inputs. -/
theorem hav_a_bounds (p1 l1 p2 l2 : ℝ) :
    0 ≤ Real.sin ((p2 - p1)/2) ^ 2 +
        Real.cos p1 * Real.cos p2 * Real.sin ((l2 - l1)/2) ^ 2 ∧
      Real.sin ((p2 - p1)/2) ^ 2 +
        Real.cos p1 * Real.cos p2 * Real.sin ((l2 - l1)/2) ^ 2 ≤ 1 := by
  rw [hav_a_eq]
  have h := abs_real_inner_le_norm (sphVec p1 l1) (sphVec p2 l2)
  rw [sphVec_norm, sphVec_norm, one_mul] at h
  rw [abs_le] at h
  constructor <;> nlinarith [h.1, h.2]

/-- On `[0, 1]` the haversine's `atan2` form computes the arccosine of
the corresponding inner product. -/
theorem atan2_arccos {a : ℝ} (h0 : 0 ≤ a) (h1 : a ≤ 1) :
    2 * atan2 (Real.sqrt a) (Real.sqrt (1 - a)) = Real.arccos (1 - 2 * a) := by
  by_cases ha : a < 1
  · have ht : 0 < Real.sqrt (1 - a) := Real.sqrt_pos.mpr (by linarith)
    have e : atan2 (Real.sqrt a) (Real.sqrt (1 - a)) =
        Real.arctan (Real.sqrt a / Real.sqrt (1 - a)) := by
      unfold atan2
      rw [if_pos ht]
    rw [e]
    set u := Real.sqrt a / Real.sqrt (1 - a) with hu
    have hu0 : 0 ≤ u := div_nonneg (Real.sqrt_nonneg a) ht.le
    have harctlt : Real.arctan u < Real.pi / 2 := Real.arctan_lt_pi_div_two u
    have harct0 : 0 ≤ Real.arctan u := by
      rw [← Real.arctan_zero]
      exact Real.arctan_strictMono.monotone hu0
    have hcos : Real.cos (2 * Real.arctan u) = 1 - 2 * a := by
      rw [Real.cos_two_mul, Real.cos_arctan]
      have husq : u ^ 2 = a / (1 - a) := by
        rw [hu, div_pow, Real.sq_sqrt h0, Real.sq_sqrt (by linarith : (0:ℝ) ≤ 1 - a)]
      have h1u : 1 + u ^ 2 = 1 / (1 - a) := by
        have hne : (1:ℝ) - a ≠ 0 := by linarith
        rw [husq]
        field_simp
      have hsq : Real.sqrt (1 + u ^ 2) ^ 2 = 1 + u ^ 2 :=
        Real.sq_sqrt (by positivity)
      rw [div_pow, one_pow, hsq, h1u]
      field_simp
      ring
    rw [Real.arccos_eq_of_eq_cos (by linarith) (by linarith [Real.pi_pos]) hcos.symm]
  · have hae : a = 1 := le_antisymm h1 (not_lt.mp ha)
    subst hae
    have e : atan2 (Real.sqrt 1) (Real.sqrt (1 - 1)) = Real.pi / 2 := by
      rw [show (1:ℝ) - 1 = 0 by norm_num, Real.sqrt_zero, Real.sqrt_one]
      unfold atan2
      rw [if_neg (lt_irrefl 0), if_neg (lt_irrefl 0), if_pos one_pos]
    rw [e, show (1:ℝ) - 2 * 1 = -1 by norm_num, Real.arccos_neg_one]
    ring

/-- Spherical triangle inequality: the arccosine of the inner product of
unit vectors is a metric-like angle. -/
theorem arccos_inner_triangle {F : Type} [NormedAddCommGroup F] [InnerProductSpace ℝ F]
    (u v w : F) (hu : ‖u‖ = 1) (hv : ‖v‖ = 1) (hw : ‖w‖ = 1) :
    Real.arccos ⟪u, w⟫ ≤ Real.arccos ⟪u, v⟫ + Real.arccos ⟪v, w⟫ := by
  have hb : ∀ (x y : F), ‖x‖ = 1 → ‖y‖ = 1 → |⟪x, y⟫| ≤ 1 := by
    intro x y hx hy
    have h := abs_real_inner_le_norm x y
    rw [hx, hy, one_mul] at h
    exact h
  have hc1 := abs_le.mp (hb u v hu hv)
  have hc2 := abs_le.mp (hb v w hv hw)
  by_cases hpi : Real.pi ≤ Real.arccos ⟪u, v⟫ + Real.arccos ⟪v, w⟫
  · exact le_trans (Real.arccos_le_pi ⟪u, w⟫) hpi
  · push_neg at hpi
    have hcos1 : Real.cos (Real.arccos ⟪u, v⟫) = ⟪u, v⟫ := Real.cos_arccos hc1.1 hc1.2
    have hcos2 : Real.cos (Real.arccos ⟪v, w⟫) = ⟪v, w⟫ := Real.cos_arccos hc2.1 hc2.2
    have hsin1 : Real.sin (Real.arccos ⟪u, v⟫) = Real.sqrt (1 - ⟪u, v⟫ ^ 2) :=
      Real.sin_arccos _
    have hsin2 : Real.sin (Real.arccos ⟪v, w⟫) = Real.sqrt (1 - ⟪v, w⟫ ^ 2) :=
      Real.sin_arccos _
    have hvv : ⟪v, v⟫ = (1:ℝ) := by
      rw [real_inner_self_eq_norm_sq, hv]
      norm_num
    have hinner : ⟪u - ⟪u, v⟫ • v, w - ⟪v, w⟫ • v⟫ =
        ⟪u, w⟫ - ⟪u, v⟫ * ⟪v, w⟫ := by
      simp only [inner_sub_left, inner_sub_right, real_inner_smul_left,
        real_inner_smul_right, hvv]
      ring
    have hnu : ‖u - ⟪u, v⟫ • v‖ ^ 2 = 1 - ⟪u, v⟫ ^ 2 := by
      rw [norm_sub_sq_real, real_inner_smul_right, norm_smul, hu, hv, Real.norm_eq_abs,
        mul_one, sq_abs]
      ring
    have hnw : ‖w - ⟪v, w⟫ • v‖ ^ 2 = 1 - ⟪v, w⟫ ^ 2 := by
      rw [norm_sub_sq_real, real_inner_smul_right, norm_smul, hw, hv, Real.norm_eq_abs,
        mul_one, sq_abs]
      have hsymm : ⟪w, v⟫ = ⟪v, w⟫ := real_inner_comm v w
      rw [hsymm]
      ring
    have hnu' : ‖u - ⟪u, v⟫ • v‖ = Real.sqrt (1 - ⟪u, v⟫ ^ 2) := by
      rw [← hnu]
      exact (Real.sqrt_sq (norm_nonneg _)).symm
    have hnw' : ‖w - ⟪v, w⟫ • v‖ = Real.sqrt (1 - ⟪v, w⟫ ^ 2) := by
      rw [← hnw]
      exact (Real.sqrt_sq (norm_nonneg _)).symm
    have hCS := abs_real_inner_le_norm (u - ⟪u, v⟫ • v) (w - ⟪v, w⟫ • v)
    rw [hinner, hnu', hnw'] at hCS
    have hlow := (abs_le.mp hCS).1
    have hkey : Real.cos (Real.arccos ⟪u, v⟫ + Real.arccos ⟪v, w⟫) ≤ ⟪u, w⟫ := by
      rw [Real.cos_add, hcos1, hcos2, hsin1, hsin2]
      linarith
    have hmono : Real.arccos ⟪u, w⟫ ≤
        Real.arccos (Real.cos (Real.arccos ⟪u, v⟫ + Real.arccos ⟪v, w⟫)) := by
      rw [Real.arccos_eq_pi_div_two_sub_arcsin, Real.arccos_eq_pi_div_two_sub_arcsin]
      have h := Real.monotone_arcsin hkey
      linarith
    have harc : Real.arccos (Real.cos (Real.arccos ⟪u, v⟫ + Real.arccos ⟪v, w⟫)) =
        Real.arccos ⟪u, v⟫ + Real.arccos ⟪v, w⟫ :=
      Real.arccos_cos (add_nonneg (Real.arccos_nonneg _) (Real.arccos_nonneg _))
        (le_of_lt hpi)
    rw [harc] at hmono
    exact hmono

/-- The haversine formula computes `R` times the central angle between
the two direction vectors, for all real inputs. -/
theorem haversine_eq_angle (lat1 lon1 lat2 lon2 : ℝ) :
    AnalyzeWalks.haversine_distance lat1 lon1 lat2 lon2 =
      6371 * Real.arccos ⟪sphVec (radians lat1) (radians lon1),
        sphVec (radians lat2) (radians lon2)⟫ := by
  have h0 := (hav_a_bounds (radians lat1) (radians lon1) (radians lat2) (radians lon2)).1
  have h1 := (hav_a_bounds (radians lat1) (radians lon1) (radians lat2) (radians lon2)).2
  have hbridge := atan2_arccos h0 h1
  have hval : 1 - 2 * (Real.sin ((radians lat2 - radians lat1) / 2) ^ 2 +
      Real.cos (radians lat1) * Real.cos (radians lat2) *
        Real.sin ((radians lon2 - radians lon1) / 2) ^ 2) =
      ⟪sphVec (radians lat1) (radians lon1), sphVec (radians lat2) (radians lon2)⟫ := by
    rw [hav_a_eq]
    ring
  show 6371 * (2 * atan2
      (Real.sqrt (Real.sin ((radians lat2 - radians lat1) / 2) ^ 2 +
        Real.cos (radians lat1) * Real.cos (radians lat2) *
          Real.sin ((radians lon2 - radians lon1) / 2) ^ 2))
      (Real.sqrt (1 - (Real.sin ((radians lat2 - radians lat1) / 2) ^ 2 +
        Real.cos (radians lat1) * Real.cos (radians lat2) *
          Real.sin ((radians lon2 - radians lon1) / 2) ^ 2)))) = _
  rw [hbridge, hval]

/-- The haversine distance from a point to itself is zero. -/
theorem haversine_pair_self (p : ℝ × ℝ) : AnalyzeWalks.haversine_pair p p = 0 := by
  unfold AnalyzeWalks.haversine_pair
  rw [haversine_eq_angle]
  have h : ⟪sphVec (radians p.2) (radians p.1), sphVec (radians p.2) (radians p.1)⟫ =
      (1:ℝ) := by
    rw [real_inner_self_eq_norm_sq, sphVec_norm]
    norm_num
  rw [h, Real.arccos_one, mul_zero]

/-- The haversine distance satisfies the triangle inequality. -/
theorem haversine_pair_triangle (p q r : ℝ × ℝ) :
    AnalyzeWalks.haversine_pair p r ≤
      AnalyzeWalks.haversine_pair p q + AnalyzeWalks.haversine_pair q r := by
  unfold AnalyzeWalks.haversine_pair
  rw [haversine_eq_angle, haversine_eq_angle, haversine_eq_angle, ← mul_add]
  refine mul_le_mul_of_nonneg_left ?_ (by norm_num : (0:ℝ) ≤ 6371)
  exact arccos_inner_triangle _ _ _ (sphVec_norm _ _) (sphVec_norm _ _) (sphVec_norm _ _)

/-- The shapely point distance is the Euclidean plane distance. -/
theorem point_distance_eq_dist (p q : ℝ × ℝ) :
    point_distance p q = dist (toPlane p) (toPlane q) := by
  unfold point_distance
  rw [EuclideanSpace.dist_eq]
  congr 1
  simp only [toPlane, Fin.sum_univ_two, Real.dist_eq, sq_abs, Matrix.cons_val_zero,
    Matrix.cons_val_one, Matrix.head_cons]
  ring

/-- The shapely point distance satisfies the triangle inequality. -/
theorem point_distance_triangle (p q r : ℝ × ℝ) :
    point_distance p r ≤ point_distance p q + point_distance q r := by
  rw [point_distance_eq_dist, point_distance_eq_dist, point_distance_eq_dist]
  exact dist_triangle _ _ _

/-- A path's consecutive-distance sum dominates the end-to-end distance,
for any distance with zero diagonal and the triangle inequality. -/
theorem path_sum_ge {α : Type} (d : α → α → ℝ) (h0 : ∀ p, d p p = 0)
    (htri : ∀ p q r, d p r ≤ d p q + d q r) :
    ∀ (t : List α) (x : α) (dflt : α),
      d x ((x :: t).getLastD dflt) ≤ path_sum d (x :: t) := by
  intro t
  induction t with
  | nil =>
    intro x dflt
    show d x x ≤ path_sum d [x]
    have e : path_sum d [x] = 0 := rfl
    rw [h0, e]
  | cons y t' ih =>
    intro x dflt
    have e : path_sum d (x :: y :: t') = d x y + path_sum d (y :: t') := rfl
    have eL : (x :: y :: t').getLastD dflt = (y :: t').getLastD dflt := by
      rw [List.getLastD_eq_getLast?, List.getLastD_eq_getLast?, List.getLast?_cons_cons]
    rw [e, eL]
    calc d x ((y :: t').getLastD dflt)
        ≤ d x y + d y ((y :: t').getLastD dflt) := htri _ _ _
      _ ≤ d x y + path_sum d (y :: t') := by
          have := ih y dflt
          linarith

/-- C10: whenever metrics are computed from at least 2 coordinates, the
resulting sinuosity is at least 1 when the direct distance is positive
(the path distance dominates the direct distance by the triangle
inequality of the underlying distance — haversine for the segment-level
calculator, planar Euclidean for the city-specific one) and is defined
as exactly 1 when the direct distance is 0. -/
theorem C10_sinuosity_ge_one :
    (∀ (coords : List (ℝ × ℝ)) (ts : List ℝ) (m : SegMetrics ℝ),
      AnalyzeWalks.calculate_segment_metrics coords ts = some m →
      (0 < m.direct_distance → 1 ≤ m.sinuosity) ∧
      (m.direct_distance = 0 → m.sinuosity = 1)) ∧
    (∀ (p : CitySpec.PathRow) (city : City) (m : Metrics ℝ),
      CitySpec.calculate_path_metrics p city = some m →
      (0 < m.direct_distance → 1 ≤ m.sinuosity) ∧
      (m.direct_distance = 0 → m.sinuosity = 1)) := by
  constructor
  · intro coords ts m h
    simp only [AnalyzeWalks.calculate_segment_metrics] at h
    by_cases hc : coords.length < 2
    · rw [if_pos hc] at h
      exact absurd h (by simp)
    · rw [if_neg hc, Option.some.injEq] at h
      subst h
      cases coords with
      | nil => simp at hc
      | cons x t =>
        dsimp only
        constructor
        · intro hd
          rw [if_pos hd]
          refine (one_le_div hd).mpr ?_
          exact path_sum_ge AnalyzeWalks.haversine_pair haversine_pair_self
            haversine_pair_triangle t x ((0:ℝ), 0)
        · intro hd
          rw [if_neg (by rw [hd]; exact lt_irrefl 0)]
  · intro p city m h
    rcases p with ⟨st, et, geom⟩
    cases st with
    | none => simp [CitySpec.calculate_path_metrics] at h
    | some stv =>
      cases et with
      | none => simp [CitySpec.calculate_path_metrics] at h
      | some etv =>
        cases geom with
        | nil => simp [CitySpec.calculate_path_metrics] at h
        | cons p0 rest0 =>
          cases rest0 with
          | nil => simp [CitySpec.calculate_path_metrics] at h
          | cons p1 rest =>
            simp only [CitySpec.calculate_path_metrics] at h
            rw [Option.some.injEq] at h
            subst h
            dsimp only
            constructor
            · intro hd
              rw [if_pos hd]
              refine (one_le_div hd).mpr ?_
              exact path_sum_ge point_distance point_distance_self
                point_distance_triangle (p1 :: rest) p0 ((0:ℝ), 0)
            · intro hd
              rw [if_neg (by rw [hd]; exact lt_irrefl 0)]

/-- Metrics of a degenerate two-point segment (both points at the
origin): zero distances, sinuosity 1, infinite point density. -/
theorem seg_metrics_degenerate :
    AnalyzeWalks.calculate_segment_metrics [((0:ℝ), 0), (0, 0)] [0, 10] =
      some { direct_distance := 0, path_distance := 0, duration_hours := 10/3600,
             avg_speed_kmh := 0, sinuosity := 1, point_density := ⊤ } := by
  have hself : AnalyzeWalks.haversine_pair ((0:ℝ), 0) ((0:ℝ), 0) = 0 :=
    haversine_pair_self _
  have hself' : AnalyzeWalks.haversine_pair (0 : ℝ × ℝ) (0 : ℝ × ℝ) = 0 :=
    haversine_pair_self _
  simp only [AnalyzeWalks.calculate_segment_metrics]
  norm_num [path_sum, hself, hself']

/-- C10 witness: the demo walk has sinuosity exactly 1 with positive
direct distance (3 units), and the degenerate segment has direct
distance 0 with sinuosity defined as 1. -/
theorem C10_sinuosity_ge_one_witness :
    ((1:ℝ) ≤ 1) ∧ ((1:ℝ) = 1) :=
  ⟨(C10_sinuosity_ge_one.2 demoWalk City.london
      { duration := 1000, path_distance := 3, direct_distance := 3,
        avg_speed := 3/1000, sinuosity := 1 } demoWalk_metrics).1
      (by show (0:ℝ) < 3; norm_num),
   (C10_sinuosity_ge_one.1 [((0:ℝ), 0), (0, 0)] [0, 10]
      { direct_distance := 0, path_distance := 0, duration_hours := 10/3600,
        avg_speed_kmh := 0, sinuosity := 1, point_density := ⊤ }
      seg_metrics_degenerate).2 rfl⟩

/-- C3: for every path whose metrics are computed successfully, the
trajectory-level classifier returns transit exactly when
`direct_distance > max_direct_distance`, or
`avg_speed > max_walking_speed * 1.2`, or
(`direct_distance > 2000` and `sinuosity < 1.05`), or
(`avg_speed < min_walking_speed` and `direct_distance > 500`);
when all four conditions fail it returns walking.  Stated both for the
shared rule body of `walk_analyzer.is_probable_transit` and for the
city-specific `is_probable_transit` composed with its metric
calculator. -/
theorem C3_trajectory_transit_rule_iff (params : Params ℝ) (m : Metrics ℝ)
    (p : CitySpec.PathRow) (city : City) (m' : Metrics ℝ) :
    (WalkAnalyzer.transit_rules params m = true ↔
      (m.direct_distance > params.max_direct_distance ∨
        m.avg_speed > params.max_walking_speed * 1.2 ∨
        (m.direct_distance > 2000 ∧ m.sinuosity < 1.05) ∨
        (m.avg_speed < params.min_walking_speed ∧ m.direct_distance > 500))) ∧
    (CitySpec.calculate_path_metrics p city = some m' →
      (CitySpec.is_probable_transit p city = true ↔
        (m'.direct_distance > (CITY_PARAMS city : Params ℝ).max_direct_distance ∨
          m'.avg_speed > (CITY_PARAMS city : Params ℝ).max_walking_speed * 1.2 ∨
          (m'.direct_distance > 2000 ∧ m'.sinuosity < 1.05) ∨
          (m'.avg_speed < (CITY_PARAMS city : Params ℝ).min_walking_speed ∧
            m'.direct_distance > 500)))) := by
  rw [show (1.2 : ℝ) = 12/10 by norm_num, show (1.05 : ℝ) = 21/20 by norm_num]
  refine ⟨transit_rules_iff params m, fun h => ?_⟩
  rw [citySpec_transit_eq_rules p city m' h]
  exact transit_rules_iff (CITY_PARAMS city) m'

/-- C3 witness: the demo walk (3 units in 1000 s in London) trips none
of the four rules, so the classifier reports walking. -/
theorem C3_trajectory_transit_rule_witness :
    CitySpec.is_probable_transit demoWalk City.london = false :=
  Bool.eq_false_iff.mpr fun h => by
    have hdis :=
      ((C3_trajectory_transit_rule_iff (CITY_PARAMS City.london)
            { duration := 1000, path_distance := 3, direct_distance := 3,
              avg_speed := 3 / 1000, sinuosity := 1 }
            demoWalk City.london
            { duration := 1000, path_distance := 3, direct_distance := 3,
              avg_speed := 3 / 1000, sinuosity := 1 }).2 demoWalk_metrics).mp h
    have hparams : (CITY_PARAMS City.london : Params ℝ) =
        { buffer_distance := 8, max_walking_speed := 5/2, min_walking_speed := 1/5,
          max_sinuosity := 3, max_direct_distance := 8000 } := rfl
    rw [hparams] at hdis
    norm_num at hdis
